import Mathlib

/-
Verification of the reconciliation core of the `terraform-provider-pinot`
repository: the identity codec, the table-config secret
injection/redaction engine, the multi-shape user-response disambiguator,
and the read/create error-handling decisions of the resource lifecycle
controllers.

Go JSON documents (`map[string]interface{}` / `[]interface{}` trees as
produced by `encoding/json`) are embedded as the inductive tree `JVal`,
with objects as association lists; Go map reads/writes/deletes are the
assoc-list operations `getK`/`setK`/`delK`.  Go string primitives used by
the source (`strings.TrimSpace`, `ToUpper`, `EqualFold`, `Contains`,
`HasSuffix`, `TrimSuffix`) are embedded on `List Char` so that they
evaluate inside the kernel.  For the in-place-mutation question a second,
heap-explicit embedding of the redaction function is given (`redactHeap`),
in which Go maps and slices are addressed nodes and fresh allocation is
the only way the heap grows.
-/

/-- A Go JSON value as produced by `encoding/json` unmarshalling into
`interface{}`: null, bool, number, string, `[]interface{}`, or
`map[string]interface{}` (association list; keys are unique in values
coming from Go maps). -/
inductive JVal where
  | jnull : JVal
  | jbool : Bool → JVal
  | jnum  : Int → JVal
  | jstr  : String → JVal
  | arr   : List JVal → JVal
  | obj   : List (String × JVal) → JVal

/-- Go map read `m[k]` (first matching key). -/
def getK {α : Type} : List (String × α) → String → Option α
  | [], _ => none
  | (k', v) :: rest, k => if k' = k then some v else getK rest k

/-- Go map write `m[k] = v`: replace the value at `k` if present,
otherwise add the key. -/
def setK {α : Type} : List (String × α) → String → α → List (String × α)
  | [], k, v => [(k, v)]
  | (k', v') :: rest, k, v =>
    if k' = k then (k, v) :: rest else (k', v') :: setK rest k v

/-- The copy-all-entries-except-one-key loop used by
`removeSaslJaasFromTableConfig`. -/
def delK {α : Type} (l : List (String × α)) (k : String) : List (String × α) :=
  l.filter (fun p => p.1 != k)

/-- Go `strings.TrimSpace`: drop leading and trailing whitespace. -/
def goTrimSpace (s : String) : String :=
  ⟨((s.data.dropWhile Char.isWhitespace).reverse.dropWhile Char.isWhitespace).reverse⟩

/-- Go `strings.ToUpper` (the identifiers involved are ASCII). -/
def goToUpper (s : String) : String := ⟨s.data.map Char.toUpper⟩

/-- Go `strings.ToLower` (the identifiers involved are ASCII). -/
def goToLower (s : String) : String := ⟨s.data.map Char.toLower⟩

/-- Go `strings.EqualFold`, modelled as case-insensitive equality via
`goToLower` (the table types involved are ASCII). -/
def equalFold (a b : String) : Bool := goToLower a == goToLower b

/-- Go `strings.Contains`. -/
def strContains (s pat : String) : Bool :=
  s.data.tails.any (fun t => pat.data.isPrefixOf t)

/-- Go `strings.HasSuffix`. -/
def hasSuffixStr (s pat : String) : Bool :=
  decide (pat.data.length ≤ s.data.length) &&
    s.data.drop (s.data.length - pat.data.length) == pat.data

/-- Go `strings.TrimSuffix`. -/
def trimSuffixStr (s pat : String) : String :=
  if hasSuffixStr s pat then ⟨s.data.take (s.data.length - pat.data.length)⟩ else s

/-- `s` contains `pat` as a contiguous substring (specification-side
notion used to state what the credential string embeds). -/
def strHas (s pat : String) : Prop :=
  ∃ l r, s.data = l ++ pat.data ++ r

/- ---- Identity codec (table_resource.go) ---- -/

/-- `joinTableID` from `table_resource.go`: builds `"logical_TYPE"` for
the state ID, trimming both parts and upper-casing the type; if either
trimmed part is empty it returns just the trimmed logical name. -/
def joinTableID (logical typ : String) : String :=
  let logical := goTrimSpace logical
  let typ := goToUpper (goTrimSpace typ)
  if logical = "" ∨ typ = "" then logical
  else logical ++ "_" ++ typ

/-- `splitTableID` from `table_resource.go`: parses IDs like
`"mytable_OFFLINE"` / `"mytable_REALTIME"`; when neither suffix matches it
returns the whole ID with an empty type. -/
def splitTableID (id : String) : String × String :=
  if hasSuffixStr id "_OFFLINE" then (trimSuffixStr id "_OFFLINE", "OFFLINE")
  else if hasSuffixStr id "_REALTIME" then (trimSuffixStr id "_REALTIME", "REALTIME")
  else (id, "")

/- ---- Document identity validation (TableResource.Create / Update) ---- -/

/-- Go string type assertion with zero default: `s, _ := v.(string)`. -/
def asGoString : Option JVal → String
  | some (.jstr s) => s
  | _ => ""

/-- The identity validation performed by `TableResource.Create` before the
API call: the embedded `tableName` (read with a defaulting string
assertion) must equal `joinTableID table_name table_type`, and the
embedded `tableType` must be `EqualFold`-equal to the declared type.
`some msg` means Create adds the error and returns before any network
call. -/
def tableCreateValidate (tableConfig : List (String × JVal))
    (tableName tableType : String) : Option String :=
  let fullTableName := joinTableID tableName tableType
  let tn := asGoString (getK tableConfig "tableName")
  if tn = fullTableName then
    let tt := asGoString (getK tableConfig "tableType")
    if equalFold tt tableType then none else some "Table Type Mismatch"
  else some "Table Name Mismatch"

/-- The identity validation performed by `TableResource.Update`: same
comparisons as Create, but an empty (hence also an absent) embedded field
is skipped. `some msg` means Update aborts before the API call. -/
def tableUpdateValidate (tableConfig : List (String × JVal))
    (tableName tableType : String) : Option String :=
  let fullTableName := joinTableID tableName tableType
  let tn := asGoString (getK tableConfig "tableName")
  if tn ≠ "" ∧ tn ≠ fullTableName then some "Table Name Mismatch"
  else
    let tt := asGoString (getK tableConfig "tableType")
    if tt ≠ "" ∧ ¬ equalFold tt tableType then some "Table Type Mismatch"
    else none

/- ---- Secret builder (buildSaslJaas / buildSaslIfProvided) ---- -/

/-- `buildSaslJaas` from `table_resource.go`: the templated Kafka SCRAM
credential string embedding both values verbatim. -/
def buildSaslJaas (username password : String) : String :=
  "org.apache.kafka.common.security.scram.ScramLoginModule required username=\"" ++
    username ++ "\" password=\"" ++ password ++ "\";"

/-- `buildSaslIfProvided` from `table_resource.go`.  The two attributes
are `Option String` (`none` is a Terraform null).  `Except.ok ""` is the
no-op result (the callers only inject when the value is nonempty);
`Except.error` carries Go's error message. -/
def buildSaslIfProvided (kafkaUsername kafkaPassword : Option String) :
    Except String String :=
  match kafkaUsername, kafkaPassword with
  | none, none => .ok ""
  | none, some _ => .error "both kafka_username and kafka_password must be provided together"
  | some _, none => .error "both kafka_username and kafka_password must be provided together"
  | some username, some password =>
    if goTrimSpace username = "" ∨ goTrimSpace password = "" then
      .error "both kafka_username and kafka_password must be non-empty"
    else .ok (buildSaslJaas username password)

/- ---- Secret injection into the table config tree (injectKafkaSasl) ---- -/

/-- `injectKafkaSasl` from `table_resource.go`, at the level of the JSON
value the config holds after the call (the Go function mutates
`*tableConfig` in place; documents coming from `json.Unmarshal` share no
sub-maps, so the resulting value is this one).  It locates-or-creates
`ingestionConfig.streamIngestionConfig.streamConfigMaps` and sets
`sasl.jaas.config` there, handling the map shape, the list-of-maps shape
(first element only) and the absent/other shape (a fresh one-element
list). -/
def injectKafkaSasl (tableConfig : List (String × JVal)) (sasl : String) :
    List (String × JVal) :=
  let ingestion : List (String × JVal) :=
    match getK tableConfig "ingestionConfig" with
    | some (.obj m) => m
    | _ => []
  let streamIngestion : List (String × JVal) :=
    match getK ingestion "streamIngestionConfig" with
    | some (.obj m) => m
    | _ => []
  let newSCM : JVal :=
    match getK streamIngestion "streamConfigMaps" with
    | some (.obj v) => .obj (setK v "sasl.jaas.config" (.jstr sasl))
    | some (.arr v) =>
      match v with
      | [] => .arr [.obj [("sasl.jaas.config", .jstr sasl)]]
      | first :: rest =>
        match first with
        | .obj firstMap => .arr (.obj (setK firstMap "sasl.jaas.config" (.jstr sasl)) :: rest)
        | _ => .arr (.obj [("sasl.jaas.config", .jstr sasl)] :: rest)
    | _ => .arr [.obj [("sasl.jaas.config", .jstr sasl)]]
  setK tableConfig "ingestionConfig"
    (.obj (setK ingestion "streamIngestionConfig"
      (.obj (setK streamIngestion "streamConfigMaps" newSCM))))

/- ---- Secret redaction (removeSaslJaasFromTableConfig) ---- -/

/-- The per-element cleanup of the list-of-maps branch of
`removeSaslJaasFromTableConfig`: a map element loses its
`sasl.jaas.config` key, any other element is left untouched. -/
def cleanStreamElem : JVal → JVal
  | .obj m => .obj (delK m "sasl.jaas.config")
  | v => v

/-- `removeSaslJaasFromTableConfig` from `table_resource.go`, at the level
of the returned JSON value: a copy of the config with `sasl.jaas.config`
removed from `ingestionConfig.streamIngestionConfig.streamConfigMaps`,
whether that location is a single map or a list of maps; when any link of
the chain is missing or of an unexpected shape the result is (a copy of)
the input. -/
def removeSaslJaasFromTableConfig (input : List (String × JVal)) :
    List (String × JVal) :=
  match getK input "ingestionConfig" with
  | some (.obj ingestion) =>
    match getK ingestion "streamIngestionConfig" with
    | some (.obj streamIngestion) =>
      match getK streamIngestion "streamConfigMaps" with
      | some (.obj scm) =>
        setK input "ingestionConfig"
          (.obj (setK ingestion "streamIngestionConfig"
            (.obj (setK streamIngestion "streamConfigMaps"
              (.obj (delK scm "sasl.jaas.config"))))))
      | some (.arr scmList) =>
        setK input "ingestionConfig"
          (.obj (setK ingestion "streamIngestionConfig"
            (.obj (setK streamIngestion "streamConfigMaps"
              (.arr (scmList.map cleanStreamElem))))))
      | _ => input
    | _ => input
  | _ => input

/- ---- Canonical views used by the frame/idempotence proofs ---- -/

/-- The `ingestionConfig` map of a table config, with the defaulting
performed by `injectKafkaSasl` (absent or non-map becomes empty). -/
def ingOf (tc : List (String × JVal)) : List (String × JVal) :=
  match getK tc "ingestionConfig" with
  | some (.obj m) => m
  | _ => []

/-- The `streamIngestionConfig` map below `ingOf`, with the defaulting
performed by `injectKafkaSasl`. -/
def siOf (tc : List (String × JVal)) : List (String × JVal) :=
  match getK (ingOf tc) "streamIngestionConfig" with
  | some (.obj m) => m
  | _ => []

/-- The value `injectKafkaSasl` leaves at the `streamConfigMaps` slot. -/
def injectedSCM (tc : List (String × JVal)) (sasl : String) : JVal :=
  match getK (siOf tc) "streamConfigMaps" with
  | some (.obj v) => .obj (setK v "sasl.jaas.config" (.jstr sasl))
  | some (.arr v) =>
    match v with
    | [] => .arr [.obj [("sasl.jaas.config", .jstr sasl)]]
    | first :: rest =>
      match first with
      | .obj firstMap => .arr (.obj (setK firstMap "sasl.jaas.config" (.jstr sasl)) :: rest)
      | _ => .arr (.obj [("sasl.jaas.config", .jstr sasl)] :: rest)
  | _ => .arr [.obj [("sasl.jaas.config", .jstr sasl)]]

/-- The value found at the `streamConfigMaps` slot after injecting and
then redacting. -/
def redactedSCM (tc : List (String × JVal)) (sasl : String) : JVal :=
  match injectedSCM tc sasl with
  | .obj scm => .obj (delK scm "sasl.jaas.config")
  | .arr l => .arr (l.map cleanStreamElem)
  | v => v

/-- Reading a path of object keys through a JSON tree (used to compare
documents outside the secret location). -/
def jgetPath : JVal → List String → Option JVal
  | v, [] => some v
  | .obj kvs, k :: rest =>
    match getK kvs k with
    | some v => jgetPath v rest
    | none => none
  | _, _ :: _ => none

/-- `pathPre p q` holds when the key path `p` is a prefix of `q`.  Two
paths are comparable when either is a prefix of the other; a path is
outside a location `L` exactly when it is incomparable with `L`. -/
def pathPre : List String → List String → Bool
  | [], _ => true
  | _ :: _, [] => false
  | a :: as, b :: bs => a == b && pathPre as bs

/- ---- Heap-explicit embedding of the redaction (mutation question) ---- -/

/-- An address of a Go map or slice in the heap model. -/
abbrev Addr := Nat

/-- A Go `interface{}` cell in the heap model: a JSON primitive, or a
reference to a map/slice node. -/
inductive HRef where
  | hnull  : HRef
  | hbool  : Bool → HRef
  | hnum   : Int → HRef
  | hstr   : String → HRef
  | haddr  : Addr → HRef
  deriving DecidableEq

/-- An allocated Go node: a `map[string]interface{}` or an
`[]interface{}`. -/
inductive HNode where
  | hmap : List (String × HRef) → HNode
  | harr : List HRef → HNode
  deriving DecidableEq

/-- The heap: allocated addresses with their nodes. -/
abbrev Heap := List (Addr × HNode)

/-- Heap lookup. -/
def hfind : Heap → Addr → Option HNode
  | [], _ => none
  | (a', n) :: rest, a => if a' = a then some n else hfind rest a

/-- A fresh address: strictly larger than every allocated address. -/
def hfresh (h : Heap) : Addr := (h.map (fun e => e.1)).foldr max 0 + 1

/-- Allocation (`make(map...)` / `make([]interface{}, ...)`): the only
way `removeSaslJaasFromTableConfig` ever writes to the heap — it never
stores into an already-allocated node. -/
def halloc (h : Heap) (n : HNode) : Heap := (hfresh h, n) :: h

/-- Go's `v, ok := entries[k].(map[string]interface{})` in the heap
model: the entry must be a reference to a map node. -/
def refMap (h : Heap) (entries : List (String × HRef)) (k : String) :
    Option (List (String × HRef)) :=
  match getK entries k with
  | some (.haddr a) =>
    match hfind h a with
    | some (.hmap m) => some m
    | _ => none
  | _ => none

/-- The list-of-maps loop of `removeSaslJaasFromTableConfig` in the heap
model: each map element is replaced by a freshly allocated copy without
`sasl.jaas.config`; other elements are kept as-is. -/
def cleanScmElemsH : Heap → List HRef → Heap × List HRef
  | h, [] => (h, [])
  | h, r :: rest =>
    match r with
    | .haddr ea =>
      match hfind h ea with
      | some (.hmap m) =>
        let h1 := halloc h (.hmap (delK m "sasl.jaas.config"))
        let p := cleanScmElemsH h1 rest
        (p.1, .haddr (hfresh h) :: p.2)
      | _ =>
        let p := cleanScmElemsH h rest
        (p.1, r :: p.2)
    | _ =>
      let p := cleanScmElemsH h rest
      (p.1, r :: p.2)

/-- The fall-through tail of `removeSaslJaasFromTableConfig` when
`streamConfigMaps` is absent or of an unexpected shape: the function has
already built fresh copies of the ingestion and stream-ingestion maps and
wired them into the fresh top-level copy. -/
def redactHeapCopies (h : Heap) (entries ingestion streamIngestion : List (String × HRef)) :
    Heap × Addr :=
  let h1 := halloc h (.hmap streamIngestion)
  let h2 := halloc h1 (.hmap (setK ingestion "streamIngestionConfig" (.haddr (hfresh h))))
  (halloc h2 (.hmap (setK entries "ingestionConfig" (.haddr (hfresh h1)))), hfresh h2)

/-- `removeSaslJaasFromTableConfig` in the heap model, mirroring the Go
control flow: every map it writes to (`out`, `newIngestion`,
`newStreamIngestion`, `newScm`, the per-element copies and the new list)
is freshly allocated, and the input document's nodes are only read.
Returns the new heap and the address of the returned config. -/
def redactHeap (h : Heap) (a : Addr) : Heap × Addr :=
  match hfind h a with
  | some (.hmap entries) =>
    match refMap h entries "ingestionConfig" with
    | none => (halloc h (.hmap entries), hfresh h)
    | some ingestion =>
      match refMap h ingestion "streamIngestionConfig" with
      | none =>
        let h1 := halloc h (.hmap ingestion)
        (halloc h1 (.hmap (setK entries "ingestionConfig" (.haddr (hfresh h)))), hfresh h1)
      | some streamIngestion =>
        match getK streamIngestion "streamConfigMaps" with
        | some (.haddr sa) =>
          match hfind h sa with
          | some (.hmap scm) =>
            let h1 := halloc h (.hmap (delK scm "sasl.jaas.config"))
            let h2 := halloc h1
              (.hmap (setK streamIngestion "streamConfigMaps" (.haddr (hfresh h))))
            let h3 := halloc h2
              (.hmap (setK ingestion "streamIngestionConfig" (.haddr (hfresh h1))))
            (halloc h3 (.hmap (setK entries "ingestionConfig" (.haddr (hfresh h2)))), hfresh h3)
          | some (.harr elems) =>
            let p := cleanScmElemsH h elems
            let h1 := halloc p.1 (.harr p.2)
            let h2 := halloc h1
              (.hmap (setK streamIngestion "streamConfigMaps" (.haddr (hfresh p.1))))
            let h3 := halloc h2
              (.hmap (setK ingestion "streamIngestionConfig" (.haddr (hfresh h1))))
            (halloc h3 (.hmap (setK entries "ingestionConfig" (.haddr (hfresh h2)))), hfresh h3)
          | _ => redactHeapCopies h entries ingestion streamIngestion
        | _ => redactHeapCopies h entries ingestion streamIngestion
  | _ => (h, a)

/- ---- Table read response unwrapping (PinotClient.GetTable) ---- -/

/-- The unwrapping step of `PinotClient.GetTable` (`client.go`): if the
response object has an `"OFFLINE"` key whose value is a JSON object, that
value is returned; else if it has a `"REALTIME"` key whose value is a
JSON object, that value; otherwise the response itself.  A wrapper key
whose value is not an object fails the Go type assertion and is
skipped. -/
def extractPhysicalConfig (response : List (String × JVal)) :
    List (String × JVal) :=
  match getK response "OFFLINE" with
  | some (.obj offlineConfig) => offlineConfig
  | _ =>
    match getK response "REALTIME" with
    | some (.obj realtimeConfig) => realtimeConfig
    | _ => response

/- ---- User response disambiguation (UserResource.fetchUser) ---- -/

/-- The shape decision of `UserResource.fetchUser` (`user_resource.go`)
on the top-level JSON object returned by `PinotClient.GetUser`:
1. a direct `"username"` key makes the object itself the record;
2. else the value under the key `username ++ "_" ++ component` (note:
   the component is used verbatim, it is not upper-cased here);
3. else, a single-entry object yields its single value;
4. else the `unexpected user response` error (Go renders the key with
   `%q`, hence the quotes in the message). -/
def fetchUserShape (username component : String)
    (top : List (String × JVal)) : Except String JVal :=
  match getK top "username" with
  | some _ => .ok (.obj top)
  | none =>
    let key := username ++ "_" ++ component
    match getK top key with
    | some raw => .ok raw
    | none =>
      match top with
      | [entry] => .ok entry.2
      | _ =>
        .error ("unexpected user response; neither plain object nor wrapper with key \""
          ++ key ++ "\"")

/- ---- Read error handling of the three resources ---- -/

/-- What a resource `Read` does with a failed remote call:
`removeFromState` models `resp.State.RemoveResource` (drop the tracked
resource), `surfaceError` models `resp.Diagnostics.AddError` with the
previously known state left untouched. -/
inductive ReadErrOutcome where
  | removeFromState : ReadErrOutcome
  | surfaceError : ReadErrOutcome
  deriving DecidableEq

/-- `TableResource.Read` on a `GetTable` error (`table_resource.go`):
drops state when the error text contains `"404"`, otherwise surfaces the
error. -/
def tableReadOnError (errText : String) : ReadErrOutcome :=
  if strContains errText "404" then .removeFromState else .surfaceError

/-- `SchemaResource.Read` on a `GetSchema` error (`schema_resource.go`):
every error is surfaced; there is no not-found branch. -/
def schemaReadOnError (_errText : String) : ReadErrOutcome :=
  .surfaceError

/-- `UserResource.Read` on a `fetchUser` error (`user_resource.go`):
every error is surfaced; there is no not-found branch. -/
def userReadOnError (_errText : String) : ReadErrOutcome :=
  .surfaceError

/- ---- User Create password gate (UserResource.Create) ---- -/

/-- `types.String.ValueString()`: the empty string for a null value. -/
def optValueString : Option String → String
  | none => ""
  | some s => s

/-- The first step a user `Create` takes: a validation error (before any
network call) or the `CreateUser` API call carrying the payload
password. -/
inductive UserCreateStep where
  | validationError : String → UserCreateStep
  | callApi : String → UserCreateStep

/-- The password gate of `UserResource.Create` (`user_resource.go`): a
null or empty planned password aborts with the missing-password error
before `CreateUser` is called; otherwise `CreateUser` is called with the
planned password in the payload. -/
def userCreateAction (password : Option String) : UserCreateStep :=
  if password = none ∨ optValueString password = "" then
    .validationError "Missing password"
  else
    .callApi (optValueString password)

/- ------------- helper lemmas ------------- -/

theorem getK_setK_self {α : Type} (l : List (String × α)) (k : String) (v : α) :
    getK (setK l k v) k = some v := by
  induction l with
  | nil => simp [getK, setK]
  | cons hd tl ih =>
    by_cases h : hd.1 = k
    · simp [getK, setK, h]
    · simpa [getK, setK, h] using ih

theorem getK_setK_ne {α : Type} (l : List (String × α)) (k k' : String) (v : α)
    (h : k' ≠ k) : getK (setK l k v) k' = getK l k' := by
  have hne : ¬ k = k' := fun he => h he.symm
  induction l with
  | nil => simp [getK, setK, hne]
  | cons hd tl ih =>
    obtain ⟨k1, v1⟩ := hd
    by_cases hh : k1 = k
    · simp [getK, setK, hh, hne]
    · by_cases hh' : k1 = k'
      · simp [getK, setK, hh, hh', h]
      · simpa [getK, setK, hh, hh'] using ih

theorem setK_setK {α : Type} (l : List (String × α)) (k : String) (v w : α) :
    setK (setK l k v) k w = setK l k w := by
  induction l with
  | nil => simp [setK]
  | cons hd tl ih =>
    by_cases h : hd.1 = k
    · simp [setK, h]
    · simpa [setK, h] using ih

theorem delK_delK {α : Type} (l : List (String × α)) (k : String) :
    delK (delK l k) k = delK l k := by
  simp [delK, List.filter_filter]

theorem hasSuffixStr_append (l pat : String) : hasSuffixStr (l ++ pat) pat = true := by
  have hd : (l ++ pat).data = l.data ++ pat.data := String.data_append l pat
  simp [hasSuffixStr, hd, List.length_append, Nat.add_sub_cancel, List.drop_left]

theorem trimSuffixStr_append (l pat : String) : trimSuffixStr (l ++ pat) pat = l := by
  have hd : (l ++ pat).data = l.data ++ pat.data := String.data_append l pat
  apply String.ext
  simp [trimSuffixStr, hasSuffixStr_append, hd, List.length_append,
    Nat.add_sub_cancel, List.take_left]

theorem append_REALTIME_no_OFFLINE_suffix (l : String) :
    hasSuffixStr (l ++ "_REALTIME") "_OFFLINE" = false := by
  have hd : (l ++ "_REALTIME").data = l.data ++ ("_REALTIME" : String).data :=
    String.data_append l "_REALTIME"
  unfold hasSuffixStr
  rw [hd, List.length_append,
    show ("_REALTIME" : String).data.length = 9 from rfl,
    show ("_OFFLINE" : String).data.length = 8 from rfl,
    show l.data.length + 9 - 8 = l.data.length + 1 from by omega,
    List.drop_append,
    show (("_REALTIME" : String).data.drop 1 == ("_OFFLINE" : String).data) = false from rfl,
    Bool.and_false]

theorem cleanStreamElem_idem (v : JVal) :
    cleanStreamElem (cleanStreamElem v) = cleanStreamElem v := by
  cases v <;> simp [cleanStreamElem, delK_delK]

theorem cleanStreamElem_comp :
    cleanStreamElem ∘ cleanStreamElem = cleanStreamElem :=
  funext cleanStreamElem_idem

theorem map_cleanStreamElem_idem (l : List JVal) :
    (l.map cleanStreamElem).map cleanStreamElem = l.map cleanStreamElem := by
  induction l with
  | nil => rfl
  | cons hd tl ih => simp [cleanStreamElem_idem, ih]

theorem removeSasl_idem (d : List (String × JVal)) :
    removeSaslJaasFromTableConfig (removeSaslJaasFromTableConfig d)
      = removeSaslJaasFromTableConfig d := by
  rcases hic : getK d "ingestionConfig" with _ | vic
  · have hd : removeSaslJaasFromTableConfig d = d := by
      simp [removeSaslJaasFromTableConfig, hic]
    rw [hd]; exact hd
  · cases vic with
    | obj ingestion =>
      rcases hsi : getK ingestion "streamIngestionConfig" with _ | vsi
      · have hd : removeSaslJaasFromTableConfig d = d := by
          simp [removeSaslJaasFromTableConfig, hic, hsi]
        rw [hd]; exact hd
      · cases vsi with
        | obj si =>
          rcases hscm : getK si "streamConfigMaps" with _ | vscm
          · have hd : removeSaslJaasFromTableConfig d = d := by
              simp [removeSaslJaasFromTableConfig, hic, hsi, hscm]
            rw [hd]; exact hd
          · cases vscm with
            | obj scm =>
              have h1 : removeSaslJaasFromTableConfig d
                  = setK d "ingestionConfig"
                      (.obj (setK ingestion "streamIngestionConfig"
                        (.obj (setK si "streamConfigMaps"
                          (.obj (delK scm "sasl.jaas.config")))))) := by
                simp [removeSaslJaasFromTableConfig, hic, hsi, hscm]
              rw [h1]
              simp [removeSaslJaasFromTableConfig, getK_setK_self, setK_setK, delK_delK]
            | arr lst =>
              have h1 : removeSaslJaasFromTableConfig d
                  = setK d "ingestionConfig"
                      (.obj (setK ingestion "streamIngestionConfig"
                        (.obj (setK si "streamConfigMaps"
                          (.arr (lst.map cleanStreamElem)))))) := by
                simp [removeSaslJaasFromTableConfig, hic, hsi, hscm]
              rw [h1]
              simp [removeSaslJaasFromTableConfig, getK_setK_self, setK_setK,
                map_cleanStreamElem_idem, cleanStreamElem_comp]
            | jnull =>
              have hd : removeSaslJaasFromTableConfig d = d := by
                simp [removeSaslJaasFromTableConfig, hic, hsi, hscm]
              rw [hd]; exact hd
            | jbool b =>
              have hd : removeSaslJaasFromTableConfig d = d := by
                simp [removeSaslJaasFromTableConfig, hic, hsi, hscm]
              rw [hd]; exact hd
            | jnum n =>
              have hd : removeSaslJaasFromTableConfig d = d := by
                simp [removeSaslJaasFromTableConfig, hic, hsi, hscm]
              rw [hd]; exact hd
            | jstr s =>
              have hd : removeSaslJaasFromTableConfig d = d := by
                simp [removeSaslJaasFromTableConfig, hic, hsi, hscm]
              rw [hd]; exact hd
        | jnull =>
          have hd : removeSaslJaasFromTableConfig d = d := by
            simp [removeSaslJaasFromTableConfig, hic, hsi]
          rw [hd]; exact hd
        | jbool b =>
          have hd : removeSaslJaasFromTableConfig d = d := by
            simp [removeSaslJaasFromTableConfig, hic, hsi]
          rw [hd]; exact hd
        | jnum n =>
          have hd : removeSaslJaasFromTableConfig d = d := by
            simp [removeSaslJaasFromTableConfig, hic, hsi]
          rw [hd]; exact hd
        | jstr s =>
          have hd : removeSaslJaasFromTableConfig d = d := by
            simp [removeSaslJaasFromTableConfig, hic, hsi]
          rw [hd]; exact hd
        | arr l =>
          have hd : removeSaslJaasFromTableConfig d = d := by
            simp [removeSaslJaasFromTableConfig, hic, hsi]
          rw [hd]; exact hd
    | jnull =>
      have hd : removeSaslJaasFromTableConfig d = d := by
        simp [removeSaslJaasFromTableConfig, hic]
      rw [hd]; exact hd
    | jbool b =>
      have hd : removeSaslJaasFromTableConfig d = d := by
        simp [removeSaslJaasFromTableConfig, hic]
      rw [hd]; exact hd
    | jnum n =>
      have hd : removeSaslJaasFromTableConfig d = d := by
        simp [removeSaslJaasFromTableConfig, hic]
      rw [hd]; exact hd
    | jstr s =>
      have hd : removeSaslJaasFromTableConfig d = d := by
        simp [removeSaslJaasFromTableConfig, hic]
      rw [hd]; exact hd
    | arr l =>
      have hd : removeSaslJaasFromTableConfig d = d := by
        simp [removeSaslJaasFromTableConfig, hic]
      rw [hd]; exact hd

theorem injectKafkaSasl_eq (tc : List (String × JVal)) (sasl : String) :
    injectKafkaSasl tc sasl
      = setK tc "ingestionConfig"
          (.obj (setK (ingOf tc) "streamIngestionConfig"
            (.obj (setK (siOf tc) "streamConfigMaps" (injectedSCM tc sasl))))) := rfl

theorem injectedSCM_shape (tc : List (String × JVal)) (sasl : String) :
    (∃ m, injectedSCM tc sasl = .obj m) ∨ (∃ l, injectedSCM tc sasl = .arr l) := by
  rcases h : getK (siOf tc) "streamConfigMaps" with _ | v
  · exact Or.inr ⟨[JVal.obj [("sasl.jaas.config", JVal.jstr sasl)]], by simp [injectedSCM, h]⟩
  · cases v with
    | obj m =>
      exact Or.inl ⟨setK m "sasl.jaas.config" (JVal.jstr sasl), by simp [injectedSCM, h]⟩
    | arr l =>
      cases l with
      | nil =>
        exact Or.inr ⟨[JVal.obj [("sasl.jaas.config", JVal.jstr sasl)]], by simp [injectedSCM, h]⟩
      | cons first rest =>
        cases first with
        | obj fm =>
          exact Or.inr ⟨JVal.obj (setK fm "sasl.jaas.config" (JVal.jstr sasl)) :: rest,
            by simp [injectedSCM, h]⟩
        | jnull =>
          exact Or.inr ⟨JVal.obj [("sasl.jaas.config", JVal.jstr sasl)] :: rest,
            by simp [injectedSCM, h]⟩
        | jbool b =>
          exact Or.inr ⟨JVal.obj [("sasl.jaas.config", JVal.jstr sasl)] :: rest,
            by simp [injectedSCM, h]⟩
        | jnum n =>
          exact Or.inr ⟨JVal.obj [("sasl.jaas.config", JVal.jstr sasl)] :: rest,
            by simp [injectedSCM, h]⟩
        | jstr s =>
          exact Or.inr ⟨JVal.obj [("sasl.jaas.config", JVal.jstr sasl)] :: rest,
            by simp [injectedSCM, h]⟩
        | arr l2 =>
          exact Or.inr ⟨JVal.obj [("sasl.jaas.config", JVal.jstr sasl)] :: rest,
            by simp [injectedSCM, h]⟩
    | jnull =>
      exact Or.inr ⟨[JVal.obj [("sasl.jaas.config", JVal.jstr sasl)]], by simp [injectedSCM, h]⟩
    | jbool b =>
      exact Or.inr ⟨[JVal.obj [("sasl.jaas.config", JVal.jstr sasl)]], by simp [injectedSCM, h]⟩
    | jnum n =>
      exact Or.inr ⟨[JVal.obj [("sasl.jaas.config", JVal.jstr sasl)]], by simp [injectedSCM, h]⟩
    | jstr s =>
      exact Or.inr ⟨[JVal.obj [("sasl.jaas.config", JVal.jstr sasl)]], by simp [injectedSCM, h]⟩

theorem inject_then_redact (tc : List (String × JVal)) (sasl : String) :
    removeSaslJaasFromTableConfig (injectKafkaSasl tc sasl)
      = setK tc "ingestionConfig"
          (.obj (setK (ingOf tc) "streamIngestionConfig"
            (.obj (setK (siOf tc) "streamConfigMaps" (redactedSCM tc sasl))))) := by
  rw [injectKafkaSasl_eq]
  rcases injectedSCM_shape tc sasl with ⟨m, hm⟩ | ⟨l, hl⟩
  · rw [hm]
    simp [removeSaslJaasFromTableConfig, getK_setK_self, setK_setK, redactedSCM, hm]
  · rw [hl]
    simp [removeSaslJaasFromTableConfig, getK_setK_self, setK_setK, redactedSCM, hl]

theorem frame_outside (tc : List (String × JVal)) (X : JVal) (p : List String)
    (h1 : pathPre p ["ingestionConfig", "streamIngestionConfig", "streamConfigMaps"] = false)
    (h2 : pathPre ["ingestionConfig", "streamIngestionConfig", "streamConfigMaps"] p = false) :
    jgetPath (.obj (setK tc "ingestionConfig"
        (.obj (setK (ingOf tc) "streamIngestionConfig"
          (.obj (setK (siOf tc) "streamConfigMaps" X)))))) p
      = jgetPath (.obj tc) p := by
  cases p with
  | nil => simp [pathPre] at h1
  | cons k p' =>
    by_cases hk : k = "ingestionConfig"
    · subst hk
      have h1' : pathPre p' ["streamIngestionConfig", "streamConfigMaps"] = false := by
        simpa [pathPre] using h1
      have h2' : pathPre ["streamIngestionConfig", "streamConfigMaps"] p' = false := by
        simpa [pathPre] using h2
      simp only [jgetPath, getK_setK_self]
      cases p' with
      | nil => simp [pathPre] at h1'
      | cons k2 p'' =>
        by_cases hk2 : k2 = "streamIngestionConfig"
        · subst hk2
          have h1'' : pathPre p'' ["streamConfigMaps"] = false := by
            simpa [pathPre] using h1'
          have h2'' : pathPre ["streamConfigMaps"] p'' = false := by
            simpa [pathPre] using h2'
          simp only [jgetPath, getK_setK_self]
          cases p'' with
          | nil => simp [pathPre] at h1''
          | cons k3 p''' =>
            have hk3 : ¬ ("streamConfigMaps" : String) = k3 := by
              simpa [pathPre] using h2''
            have e3 : ∀ l : List (String × JVal),
                getK (setK l "streamConfigMaps" X) k3 = getK l k3 :=
              fun l => getK_setK_ne _ _ _ _ (fun he => hk3 he.symm)
            rcases hv : getK tc "ingestionConfig" with _ | v
            · simp [jgetPath, e3, siOf, ingOf, hv, getK, hk3]
            · cases v with
              | obj m =>
                rcases hv2 : getK m "streamIngestionConfig" with _ | v2
                · simp [jgetPath, e3, siOf, ingOf, hv, hv2, getK, hk3]
                · cases v2 <;> simp [jgetPath, e3, siOf, ingOf, hv, hv2, getK, hk3]
              | jnull => simp [jgetPath, e3, siOf, ingOf, hv, getK, hk3]
              | jbool b => simp [jgetPath, e3, siOf, ingOf, hv, getK, hk3]
              | jnum n => simp [jgetPath, e3, siOf, ingOf, hv, getK, hk3]
              | jstr s => simp [jgetPath, e3, siOf, ingOf, hv, getK, hk3]
              | arr l => simp [jgetPath, e3, siOf, ingOf, hv, getK, hk3]
        · have hk2s : ¬ ("streamIngestionConfig" : String) = k2 :=
            fun he => hk2 he.symm
          have e2 : ∀ l : List (String × JVal),
              getK (setK l "streamIngestionConfig"
                (.obj (setK (siOf tc) "streamConfigMaps" X))) k2 = getK l k2 :=
            fun l => getK_setK_ne _ _ _ _ hk2
          rcases hv : getK tc "ingestionConfig" with _ | v
          · simp [jgetPath, e2, ingOf, hv, getK, hk2s]
          · cases v <;> simp [jgetPath, e2, ingOf, hv, getK, hk2s]
    · have e1 : getK (setK tc "ingestionConfig"
          (.obj (setK (ingOf tc) "streamIngestionConfig"
            (.obj (setK (siOf tc) "streamConfigMaps" X))))) k = getK tc k :=
        getK_setK_ne _ _ _ _ hk
      simp only [jgetPath]
      rw [e1]

theorem hfind_lt_fresh (h : Heap) (x : Addr) (hx : hfind h x ≠ none) :
    x < hfresh h := by
  induction h with
  | nil => simp [hfind] at hx
  | cons hd tl ih =>
    obtain ⟨a, n⟩ := hd
    by_cases hax : a = x
    · subst hax
      have he : hfresh ((a, n) :: tl)
          = max a ((tl.map (fun e => e.1)).foldr max 0) + 1 := rfl
      rw [he]
      exact Nat.lt_succ_of_le (le_max_left _ _)
    · have hx' : hfind tl x ≠ none := by simpa [hfind, hax] using hx
      have h1 := ih hx'
      have he : hfresh ((a, n) :: tl)
          = max a ((tl.map (fun e => e.1)).foldr max 0) + 1 := rfl
      have h2 : hfresh tl = (tl.map (fun e => e.1)).foldr max 0 + 1 := rfl
      rw [h2] at h1
      rw [he]
      exact lt_of_lt_of_le h1 (Nat.succ_le_succ (le_max_right _ _))

theorem hfind_halloc (h : Heap) (n : HNode) (x : Addr) (hx : hfind h x ≠ none) :
    hfind (halloc h n) x = hfind h x := by
  have hlt := hfind_lt_fresh h x hx
  have hne : ¬ hfresh h = x := fun he => absurd (he ▸ hlt) (Nat.lt_irrefl x)
  simp [halloc, hfind, hne]

theorem hfind_halloc_ne (h : Heap) (n : HNode) (x : Addr) (hx : hfind h x ≠ none) :
    hfind (halloc h n) x ≠ none := by
  rw [hfind_halloc h n x hx]; exact hx

theorem hfind_halloc2 (h : Heap) (n1 n2 : HNode) (x : Addr) (hx : hfind h x ≠ none) :
    hfind (halloc (halloc h n1) n2) x = hfind h x := by
  rw [hfind_halloc _ n2 _ (hfind_halloc_ne _ n1 _ hx), hfind_halloc _ n1 _ hx]

theorem hfind_halloc3 (h : Heap) (n1 n2 n3 : HNode) (x : Addr) (hx : hfind h x ≠ none) :
    hfind (halloc (halloc (halloc h n1) n2) n3) x = hfind h x := by
  rw [hfind_halloc _ n3 _ (hfind_halloc_ne _ n2 _ (hfind_halloc_ne _ n1 _ hx)),
    hfind_halloc2 _ n1 n2 _ hx]

theorem hfind_halloc4 (h : Heap) (n1 n2 n3 n4 : HNode) (x : Addr)
    (hx : hfind h x ≠ none) :
    hfind (halloc (halloc (halloc (halloc h n1) n2) n3) n4) x = hfind h x := by
  rw [hfind_halloc _ n4 _
      (hfind_halloc_ne _ n3 _ (hfind_halloc_ne _ n2 _ (hfind_halloc_ne _ n1 _ hx))),
    hfind_halloc3 _ n1 n2 n3 _ hx]

theorem cleanScmElemsH_preserves (l : List HRef) (h : Heap) (x : Addr)
    (hx : hfind h x ≠ none) : hfind (cleanScmElemsH h l).1 x = hfind h x := by
  induction l generalizing h with
  | nil => rfl
  | cons r rest ih =>
    cases r with
    | haddr ea =>
      rcases hn : hfind h ea with _ | nd
      · simpa [cleanScmElemsH, hn] using ih h hx
      · cases nd with
        | hmap m =>
          have p1 := hfind_halloc h (.hmap (delK m "sasl.jaas.config")) x hx
          have hx1 : hfind (halloc h (.hmap (delK m "sasl.jaas.config"))) x ≠ none := by
            rw [p1]; exact hx
          simp only [cleanScmElemsH, hn]
          rw [ih _ hx1, p1]
        | harr a => simpa [cleanScmElemsH, hn] using ih h hx
    | hnull => simpa [cleanScmElemsH] using ih h hx
    | hbool b => simpa [cleanScmElemsH] using ih h hx
    | hnum n => simpa [cleanScmElemsH] using ih h hx
    | hstr s => simpa [cleanScmElemsH] using ih h hx

theorem redactHeapCopies_preserves (h : Heap)
    (entries ingestion streamIngestion : List (String × HRef)) (x : Addr)
    (hx : hfind h x ≠ none) :
    hfind (redactHeapCopies h entries ingestion streamIngestion).1 x = hfind h x := by
  simp only [redactHeapCopies]
  exact hfind_halloc3 h _ _ _ x hx

theorem redactHeap_preserves (h : Heap) (a x : Addr) (hx : hfind h x ≠ none) :
    hfind (redactHeap h a).1 x = hfind h x := by
  rcases hfa : hfind h a with _ | nd
  · simp [redactHeap, hfa]
  · cases nd with
    | harr l => simp [redactHeap, hfa]
    | hmap entries =>
      rcases hri : refMap h entries "ingestionConfig" with _ | ingestion
      · simp only [redactHeap, hfa, hri]
        exact hfind_halloc _ _ _ hx
      · rcases hrsi : refMap h ingestion "streamIngestionConfig" with _ | streamIngestion
        · simp only [redactHeap, hfa, hri, hrsi]
          exact hfind_halloc2 _ _ _ _ hx
        · rcases hscm : getK streamIngestion "streamConfigMaps" with _ | r
          · simp only [redactHeap, hfa, hri, hrsi, hscm]
            exact redactHeapCopies_preserves _ _ _ _ _ hx
          · cases r with
            | haddr sa =>
              rcases hsa : hfind h sa with _ | nd2
              · simp only [redactHeap, hfa, hri, hrsi, hscm, hsa]
                exact redactHeapCopies_preserves _ _ _ _ _ hx
              · cases nd2 with
                | hmap scm =>
                  simp only [redactHeap, hfa, hri, hrsi, hscm, hsa]
                  exact hfind_halloc4 _ _ _ _ _ _ hx
                | harr elems =>
                  have hcl := cleanScmElemsH_preserves elems h x hx
                  have hclne : hfind (cleanScmElemsH h elems).1 x ≠ none := by
                    rw [hcl]; exact hx
                  simp only [redactHeap, hfa, hri, hrsi, hscm, hsa]
                  rw [hfind_halloc4 _ _ _ _ _ _ hclne, hcl]
            | hnull =>
              simp only [redactHeap, hfa, hri, hrsi, hscm]
              exact redactHeapCopies_preserves _ _ _ _ _ hx
            | hbool b =>
              simp only [redactHeap, hfa, hri, hrsi, hscm]
              exact redactHeapCopies_preserves _ _ _ _ _ hx
            | hnum n =>
              simp only [redactHeap, hfa, hri, hrsi, hscm]
              exact redactHeapCopies_preserves _ _ _ _ _ hx
            | hstr s =>
              simp only [redactHeap, hfa, hri, hrsi, hscm]
              exact redactHeapCopies_preserves _ _ _ _ _ hx

/- ------------- claim theorems ------------- -/

/-- Claim C3: the secret redaction is idempotent on table-config values,
and — in the heap-explicit embedding, where Go maps/slices are addressed
nodes — it never mutates any allocated node: every address allocated
before the call still holds exactly its old node afterwards (the function
only reads the input document and allocates fresh copies). -/
theorem redactSecret_idempotent_and_pure :
    (∀ d : List (String × JVal),
      removeSaslJaasFromTableConfig (removeSaslJaasFromTableConfig d)
        = removeSaslJaasFromTableConfig d) ∧
    (∀ (h : Heap) (a x : Addr), hfind h x ≠ none →
      hfind (redactHeap h a).1 x = hfind h x) :=
  ⟨removeSasl_idem, redactHeap_preserves⟩

/-- Witness for C3 on a concrete document and its heap layout: the
double redaction equals the single one, and the node holding the secret
(address 3) is unchanged by the call. -/
theorem redactSecret_idempotent_and_pure_witness :
    removeSaslJaasFromTableConfig (removeSaslJaasFromTableConfig
      [("ingestionConfig", .obj [("streamIngestionConfig",
        .obj [("streamConfigMaps",
          .obj [("sasl.jaas.config", .jstr "secret"), ("bootstrap.servers", .jstr "b")])])])])
      = removeSaslJaasFromTableConfig
      [("ingestionConfig", .obj [("streamIngestionConfig",
        .obj [("streamConfigMaps",
          .obj [("sasl.jaas.config", .jstr "secret"), ("bootstrap.servers", .jstr "b")])])])] ∧
    hfind (redactHeap
      [(0, .hmap [("ingestionConfig", .haddr 1)]),
       (1, .hmap [("streamIngestionConfig", .haddr 2)]),
       (2, .hmap [("streamConfigMaps", .haddr 3)]),
       (3, .hmap [("sasl.jaas.config", .hstr "secret"), ("bootstrap.servers", .hstr "b")])]
      0).1 3
      = hfind
      [(0, .hmap [("ingestionConfig", .haddr 1)]),
       (1, .hmap [("streamIngestionConfig", .haddr 2)]),
       (2, .hmap [("streamConfigMaps", .haddr 3)]),
       (3, .hmap [("sasl.jaas.config", .hstr "secret"), ("bootstrap.servers", .hstr "b")])]
      3 :=
  ⟨redactSecret_idempotent_and_pure.1 _,
   redactSecret_idempotent_and_pure.2 _ 0 3 (fun hc => Option.noConfusion hc)⟩

/-- Claim C4: injecting a credential and then redacting yields a document
that agrees with the pre-injection document at every path outside the
`ingestionConfig.streamIngestionConfig.streamConfigMaps` location (every
key path incomparable with that location reads the same in both). -/
theorem injectRedact_frame (tc : List (String × JVal)) (sasl : String) (p : List String)
    (h1 : pathPre p ["ingestionConfig", "streamIngestionConfig", "streamConfigMaps"] = false)
    (h2 : pathPre ["ingestionConfig", "streamIngestionConfig", "streamConfigMaps"] p = false) :
    jgetPath (.obj (removeSaslJaasFromTableConfig (injectKafkaSasl tc sasl))) p
      = jgetPath (.obj tc) p := by
  rw [inject_then_redact]
  exact frame_outside tc (redactedSCM tc sasl) p h1 h2

/-- Witness for C4 on a concrete document and the path
`ingestionConfig.other`, which is incomparable with the secret
location. -/
theorem injectRedact_frame_witness :
    jgetPath (.obj (removeSaslJaasFromTableConfig (injectKafkaSasl
        [("tableName", .jstr "t_OFFLINE"), ("ingestionConfig", .obj [("other", .jbool true)])]
        "cred")))
      ["ingestionConfig", "other"]
    = jgetPath (.obj [("tableName", .jstr "t_OFFLINE"),
        ("ingestionConfig", .obj [("other", .jbool true)])])
      ["ingestionConfig", "other"] :=
  injectRedact_frame _ "cred" _ rfl rfl

/-- Claim C8: parsing a composite identifier derived from a valid
`(logicalName, flavor)` pair returns the original pair.  Validity:
the logical name is nonempty and carries no surrounding whitespace (it is
a table name), and the flavor is exactly `OFFLINE` or `REALTIME`. -/
theorem tableId_roundTrip (logical typ : String)
    (hTrim : goTrimSpace logical = logical) (hNe : logical ≠ "")
    (hTy : typ = "OFFLINE" ∨ typ = "REALTIME") :
    splitTableID (joinTableID logical typ) = (logical, typ) := by
  have hcat : ∀ mid suf : String,
      ("_" : String) ++ suf = mid → logical ++ "_" ++ suf = logical ++ mid := by
    intro mid suf he
    apply String.ext
    rw [← he]
    simp [String.data_append, List.append_assoc]
  rcases hTy with h | h <;> subst h
  · have hjoin : joinTableID logical "OFFLINE" = logical ++ "_OFFLINE" := by
      have hne' : ¬ (logical = "" ∨ ("OFFLINE" : String) = "") := by
        rintro (hc | hc)
        · exact hNe hc
        · exact absurd hc (by decide)
      simp only [joinTableID, hTrim]
      rw [show goToUpper (goTrimSpace "OFFLINE") = "OFFLINE" from rfl, if_neg hne']
      exact hcat "_OFFLINE" "OFFLINE" rfl
    rw [hjoin]
    simp [splitTableID, hasSuffixStr_append, trimSuffixStr_append]
  · have hjoin : joinTableID logical "REALTIME" = logical ++ "_REALTIME" := by
      have hne' : ¬ (logical = "" ∨ ("REALTIME" : String) = "") := by
        rintro (hc | hc)
        · exact hNe hc
        · exact absurd hc (by decide)
      simp only [joinTableID, hTrim]
      rw [show goToUpper (goTrimSpace "REALTIME") = "REALTIME" from rfl, if_neg hne']
      exact hcat "_REALTIME" "REALTIME" rfl
    rw [hjoin]
    simp [splitTableID, append_REALTIME_no_OFFLINE_suffix, hasSuffixStr_append,
      trimSuffixStr_append]

/-- Witness for C8 at `("events", "OFFLINE")`. -/
theorem tableId_roundTrip_witness :
    splitTableID (joinTableID "events" "OFFLINE") = ("events", "OFFLINE") :=
  tableId_roundTrip "events" "OFFLINE" (by decide) (by decide) (Or.inl rfl)

/-- Claim C1 counterexample: a table document with no embedded
`tableName`/`tableType` at all is rejected by the Create-side identity
validation (the defaulting string assertion yields `""`, which differs
from the expected composite identity), contradicting the claimed
passthrough tolerance in both lifecycle operations. -/
theorem tableCreate_rejects_absent_fields :
    tableCreateValidate [] "events" "OFFLINE" = some "Table Name Mismatch" := rfl

/-- Claim C1 (amended): both Create and Update fail with an identity
mismatch when the embedded `tableName` (resp. `tableType`) is present and
disagrees with the composite identity; but the passthrough tolerance for
absent embedded fields holds only in Update — Create treats an absent
field as the empty string and rejects the document whenever the expected
composite identity is nonempty. -/
theorem tableIdentityValidation_amended :
    (∀ (tc : List (String × JVal)) (n t s : String),
      getK tc "tableName" = some (.jstr s) → s ≠ joinTableID n t →
      tableCreateValidate tc n t = some "Table Name Mismatch") ∧
    (∀ (tc : List (String × JVal)) (n t s : String),
      getK tc "tableName" = some (.jstr s) → s ≠ "" → s ≠ joinTableID n t →
      tableUpdateValidate tc n t = some "Table Name Mismatch") ∧
    (∀ (tc : List (String × JVal)) (n t s : String),
      getK tc "tableName" = some (.jstr (joinTableID n t)) →
      getK tc "tableType" = some (.jstr s) → equalFold s t = false →
      tableCreateValidate tc n t = some "Table Type Mismatch") ∧
    (∀ (tc : List (String × JVal)) (n t s : String),
      getK tc "tableName" = some (.jstr (joinTableID n t)) →
      getK tc "tableType" = some (.jstr s) → s ≠ "" → equalFold s t = false →
      tableUpdateValidate tc n t = some "Table Type Mismatch") ∧
    (∀ (tc : List (String × JVal)) (n t : String),
      getK tc "tableName" = none → getK tc "tableType" = none →
      tableUpdateValidate tc n t = none) ∧
    (∀ (tc : List (String × JVal)) (n t : String),
      getK tc "tableName" = none → joinTableID n t ≠ "" →
      tableCreateValidate tc n t = some "Table Name Mismatch") := by
  refine ⟨?_, ?_, ?_, ?_, ?_, ?_⟩
  · intro tc n t s h1 h2
    simp [tableCreateValidate, asGoString, h1, h2]
  · intro tc n t s h1 h2 h3
    simp [tableUpdateValidate, asGoString, h1, h2, h3]
  · intro tc n t s h1 h2 h3
    simp [tableCreateValidate, asGoString, h1, h2, h3]
  · intro tc n t s h1 h2 h3 h4
    simp [tableUpdateValidate, asGoString, h1, h2, h3, h4]
  · intro tc n t h1 h2
    simp [tableUpdateValidate, asGoString, h1, h2]
  · intro tc n t h1 h2
    simp [tableCreateValidate, asGoString, h1, Ne.symm h2]

/-- Witness for the amended C1: a mismatching embedded name fails Create,
and a document with no embedded fields passes Update. -/
theorem tableIdentityValidation_amended_witness :
    tableCreateValidate [("tableName", .jstr "events_REALTIME")] "events" "OFFLINE"
      = some "Table Name Mismatch" ∧
    tableUpdateValidate [] "events" "OFFLINE" = none :=
  ⟨tableIdentityValidation_amended.1 [("tableName", .jstr "events_REALTIME")]
      "events" "OFFLINE" "events_REALTIME" rfl (by decide),
   tableIdentityValidation_amended.2.2.2.2.1 [] "events" "OFFLINE" rfl rfl⟩

/-- Claim C5: the credential builder with both inputs present and
nonblank returns the templated string containing both `username="u"` and
`password="p"`; with exactly one input absent, or with a present but
blank input, it fails with the incomplete-credentials error; with both
inputs absent it is a no-op (empty credential, no error). -/
theorem buildCredential_spec :
    buildSaslIfProvided none none = Except.ok "" ∧
    (∀ u : String, buildSaslIfProvided (some u) none =
      Except.error "both kafka_username and kafka_password must be provided together") ∧
    (∀ p : String, buildSaslIfProvided none (some p) =
      Except.error "both kafka_username and kafka_password must be provided together") ∧
    (∀ u p : String, goTrimSpace u = "" ∨ goTrimSpace p = "" →
      buildSaslIfProvided (some u) (some p) =
        Except.error "both kafka_username and kafka_password must be non-empty") ∧
    (∀ u p : String, goTrimSpace u ≠ "" → goTrimSpace p ≠ "" →
      buildSaslIfProvided (some u) (some p) = Except.ok (buildSaslJaas u p) ∧
      strHas (buildSaslJaas u p) ("username=\"" ++ u ++ "\"") ∧
      strHas (buildSaslJaas u p) ("password=\"" ++ p ++ "\"")) := by
  refine ⟨rfl, fun u => rfl, fun p => rfl, ?_, ?_⟩
  · intro u p h
    simp [buildSaslIfProvided, h]
  · intro u p hu hp
    have hA : ("org.apache.kafka.common.security.scram.ScramLoginModule required username=\"" : String).data
        = ("org.apache.kafka.common.security.scram.ScramLoginModule required " : String).data
          ++ ("username=\"" : String).data := rfl
    have hB : ("\" password=\"" : String).data
        = ("\"" : String).data ++ (" password=\"" : String).data := rfl
    have hB' : ("\" password=\"" : String).data
        = ("\" " : String).data ++ ("password=\"" : String).data := rfl
    have hC : ("\";" : String).data = ("\"" : String).data ++ (";" : String).data := rfl
    refine ⟨by simp [buildSaslIfProvided, hu, hp], ?_, ?_⟩
    · refine ⟨("org.apache.kafka.common.security.scram.ScramLoginModule required " : String).data,
        ((" password=\"" : String).data ++ p.data ++ ("\";" : String).data), ?_⟩
      simp [buildSaslJaas, String.data_append, hA, hB, List.append_assoc]
    · refine ⟨(("org.apache.kafka.common.security.scram.ScramLoginModule required username=\"" : String).data
        ++ u.data ++ ("\" " : String).data), ((";" : String).data), ?_⟩
      simp [buildSaslJaas, String.data_append, hB', hC, List.append_assoc]

/-- Witness for C5 at username `"u"` and password `"p"`. -/
theorem buildCredential_spec_witness :
    buildSaslIfProvided (some "u") (some "p") = Except.ok (buildSaslJaas "u" "p") ∧
    strHas (buildSaslJaas "u" "p") "username=\"u\"" ∧
    strHas (buildSaslJaas "u" "p") "password=\"p\"" := by
  have h := buildCredential_spec.2.2.2.2 "u" "p" (by decide) (by decide)
  exact ⟨h.1, h.2.1, h.2.2⟩

/-- Claim C9: table-read unwrapping prefers the `OFFLINE` wrapper over
`REALTIME` when both are present as objects, and a wrapper key whose
value is not an object is skipped so the next case applies. -/
theorem getTable_unwrap_priority :
    (∀ (response offlineConfig realtimeConfig : List (String × JVal)),
      getK response "OFFLINE" = some (.obj offlineConfig) →
      getK response "REALTIME" = some (.obj realtimeConfig) →
      extractPhysicalConfig response = offlineConfig) ∧
    (∀ (response : List (String × JVal)) (v : JVal)
        (realtimeConfig : List (String × JVal)),
      getK response "OFFLINE" = some v → (∀ m, v ≠ JVal.obj m) →
      getK response "REALTIME" = some (.obj realtimeConfig) →
      extractPhysicalConfig response = realtimeConfig) := by
  constructor
  · intro response o r h1 _h2
    simp [extractPhysicalConfig, h1]
  · intro response v r h1 hv h2
    cases v with
    | obj m => exact absurd rfl (hv m)
    | jnull => simp [extractPhysicalConfig, h1, h2]
    | jbool b => simp [extractPhysicalConfig, h1, h2]
    | jnum n => simp [extractPhysicalConfig, h1, h2]
    | jstr s => simp [extractPhysicalConfig, h1, h2]
    | arr l => simp [extractPhysicalConfig, h1, h2]

/-- Witness for C9: both wrappers present picks `OFFLINE`; a string under
`OFFLINE` is skipped and `REALTIME` is unwrapped. -/
theorem getTable_unwrap_priority_witness :
    extractPhysicalConfig
      [("OFFLINE", .obj [("a", JVal.jnull)]), ("REALTIME", .obj [])]
      = [("a", JVal.jnull)] ∧
    extractPhysicalConfig
      [("OFFLINE", .jstr "x"), ("REALTIME", .obj [("b", JVal.jnull)])]
      = [("b", JVal.jnull)] :=
  ⟨getTable_unwrap_priority.1
      [("OFFLINE", .obj [("a", JVal.jnull)]), ("REALTIME", .obj [])]
      [("a", JVal.jnull)] [] rfl rfl,
   getTable_unwrap_priority.2
      [("OFFLINE", .jstr "x"), ("REALTIME", .obj [("b", JVal.jnull)])]
      (.jstr "x") [("b", JVal.jnull)] rfl (fun _m h => JVal.noConfusion h) rfl⟩

/-- Claim C10: user Create aborts with the missing-password validation
error whenever the planned password is null or empty, before any network
call; whenever it does call the API the payload password is nonempty. -/
theorem userCreate_password_gate :
    (∀ password : Option String,
      password = none ∨ optValueString password = "" →
      userCreateAction password = .validationError "Missing password") ∧
    (∀ (password : Option String) (sent : String),
      userCreateAction password = .callApi sent → sent ≠ "") := by
  constructor
  · intro pw h
    simp [userCreateAction, h]
  · intro pw sent h
    by_cases hc : pw = none ∨ optValueString pw = ""
    · simp [userCreateAction, hc] at h
    · simp [userCreateAction, hc] at h
      push_neg at hc
      rw [← h]
      exact hc.2

/-- Witness for C10: a null password is rejected; a create that reaches
the API with password `"pw"` sends a nonempty password. -/
theorem userCreate_password_gate_witness :
    userCreateAction none = UserCreateStep.validationError "Missing password" ∧
    ("pw" : String) ≠ "" :=
  ⟨userCreate_password_gate.1 none (Or.inl rfl),
   userCreate_password_gate.2 (some "pw") "pw" rfl⟩

/-- Claim C2 counterexample: a schema Read failing with a 404 error does
not remove the resource from state — `SchemaResource.Read` surfaces every
error, contradicting the claim that all three resource kinds drop state
on not-found. -/
theorem schemaRead_404_not_removed :
    schemaReadOnError "API error (status 404): schema not found"
      = ReadErrOutcome.surfaceError ∧
    ReadErrOutcome.surfaceError ≠ ReadErrOutcome.removeFromState :=
  ⟨rfl, by decide⟩

/-- Claim C2 (amended): only the table resource distinguishes not-found —
its Read removes state exactly when the error text contains `"404"` and
surfaces the error otherwise; the schema and user Reads surface every
error (including 404) without touching state. -/
theorem readOnError_amended :
    (∀ e, strContains e "404" = true →
      tableReadOnError e = ReadErrOutcome.removeFromState) ∧
    (∀ e, strContains e "404" = false →
      tableReadOnError e = ReadErrOutcome.surfaceError) ∧
    (∀ e, schemaReadOnError e = ReadErrOutcome.surfaceError) ∧
    (∀ e, userReadOnError e = ReadErrOutcome.surfaceError) := by
  refine ⟨?_, ?_, fun e => rfl, fun e => rfl⟩
  · intro e h
    simp [tableReadOnError, h]
  · intro e h
    simp [tableReadOnError, h]

/-- Witness for the amended C2 at concrete error strings. -/
theorem readOnError_amended_witness :
    tableReadOnError "API error (status 404): not found"
      = ReadErrOutcome.removeFromState ∧
    tableReadOnError "API error (status 500): boom"
      = ReadErrOutcome.surfaceError :=
  ⟨readOnError_amended.1 "API error (status 404): not found" rfl,
   readOnError_amended.2.1 "API error (status 500): boom" rfl⟩

/-- Claim C6: the code builds the wrapper key as
`username ++ "_" ++ component` with the component verbatim, not
upper-cased; with a lower-case component and a multi-key wrapper the
lookup misses the `username_COMPONENT` entry and falls through to the
unrecognized-shape error, while the same call with the upper-cased
component finds the record (the repository's own test helper
`looksLikeUserExists` upper-cases the component for this key). -/
theorem fetchUser_wrapper_key_not_uppercased :
    fetchUserShape "alice" "broker"
      [("alice_BROKER", .obj [("username", .jstr "alice"), ("component", .jstr "BROKER")]),
       ("extra", JVal.jnull)]
      = .error "unexpected user response; neither plain object nor wrapper with key \"alice_broker\"" ∧
    fetchUserShape "alice" "BROKER"
      [("alice_BROKER", .obj [("username", .jstr "alice"), ("component", .jstr "BROKER")]),
       ("extra", JVal.jnull)]
      = .ok (.obj [("username", .jstr "alice"), ("component", .jstr "BROKER")]) :=
  ⟨rfl, rfl⟩

/-- Claim C7: an empty JSON object response reaches neither the direct
`username` rule, the wrapper-key rule, nor the single-entry rule, so
`fetchUser` returns the unrecognized-shape error — it is not treated as
"not found" (the repository's own destroy-test helper treats a `{}` body
as "gone"). -/
theorem fetchUser_empty_object_is_error :
    fetchUserShape "alice" "CONTROLLER" [] =
      .error "unexpected user response; neither plain object nor wrapper with key \"alice_CONTROLLER\"" :=
  rfl
